import Mathlib

/-!
# Verification of `generate_json.py` (Linux-Rootfs catalog builder)

A shallow embedding of the repository's single script `generate_json.py`.
The filesystem tree it scans is modelled by `FSNode`; directory-listing
order is the order of a directory's entry list (`os.listdir` order), and
the places where the script sorts a listing are modelled by a stable
insertion sort (Python's `sorted` is a stable sort, so for the total
preorder used here both sorts produce the identical list).  File contents
are `String`s; a file whose content is `none` models a file whose
`open`/`read` raises.  The one unguarded exception path of the script -
`os.listdir` on an OS-type path that exists but is not a directory - is
modelled by `Except`.  Diagnostics printed by the script are collected in
a log list.
-/

/-- Python's ASCII whitespace, as used by `str.strip()` / `str.split()`
(space, tab, newline, carriage return, vertical tab, form feed). -/
def pyIsSpace (c : Char) : Bool :=
  c = ' ' || c = '\t' || c = '\n' || c = '\r' || c = '\x0b' || c = '\x0c'

/-- Python `str.strip()`: remove leading and trailing whitespace. -/
def pyStrip (s : String) : String :=
  String.mk (((s.data.dropWhile pyIsSpace).reverse.dropWhile pyIsSpace).reverse)

/-- Helper for `pySplit`: `cur` is the reversed current token. -/
def pySplitAux (cur : List Char) : List Char → List String
  | [] => if cur.isEmpty then [] else [String.mk cur.reverse]
  | c :: cs =>
    if pyIsSpace c then
      if cur.isEmpty then pySplitAux [] cs
      else String.mk cur.reverse :: pySplitAux [] cs
    else pySplitAux (c :: cur) cs

/-- Python `str.split()` with no separator: split on whitespace runs,
discarding empty pieces. -/
def pySplit (s : String) : List String :=
  pySplitAux [] s.data

/-- Python `str.endswith(suffix)`. -/
def pyEndsWith (s suffix : String) : Bool :=
  suffix.data.isSuffixOf s.data

/-- Python `<` on strings, on the underlying character lists: strict
lexicographic comparison by code point. -/
def charListLt : List Char → List Char → Bool
  | _, [] => false
  | [], _ :: _ => true
  | a :: as, b :: bs =>
    if a.toNat < b.toNat then true
    else if b.toNat < a.toNat then false
    else charListLt as bs

/-- Python `<=` on strings (the total preorder `sorted` sorts by). -/
def pyStrLe (a b : String) : Bool := ! charListLt b.data a.data

/-- Python `str.capitalize()`: first character upper-cased, the rest
lower-cased. -/
def pyCapitalize (s : String) : String :=
  match s.data with
  | [] => ""
  | c :: cs => String.mk (c.toUpper :: cs.map Char.toLower)

/-- Helper for `pyTitle`: the boolean records whether the previous
character was alphabetic (cased). -/
def pyTitleAux : Bool → List Char → List Char
  | _, [] => []
  | prevCased, c :: cs =>
    if c.isAlpha then
      (if prevCased then c.toLower else c.toUpper) :: pyTitleAux true cs
    else
      c :: pyTitleAux false cs

/-- Python `str.title()`: first letter of every alphabetic run upper-cased,
the rest of the run lower-cased. -/
def pyTitle (s : String) : String :=
  String.mk (pyTitleAux false s.data)

/-- A node of the scanned filesystem tree: a regular file with a byte size
and a readable content (`none` = reading raises), or a directory whose
entry list is in `os.listdir` order. -/
inductive FSNode where
  | file (size : Nat) (content : Option String)
  | dir (entries : List (String × FSNode))
deriving Repr

/-- Look a name up in a directory listing (names in a real directory are
unique; the first match is taken). -/
def lookupEntry (entries : List (String × FSNode)) (name : String) : Option FSNode :=
  (entries.find? (fun e => e.1 == name)).map (·.2)

/-- `os.path.join(a, b)` for the relative component names this script
joins (no absolute components, no trailing separators). -/
def pathJoin (a b : String) : String := a ++ "/" ++ b

-- Configuration constants of the script.

/-- `BASE_URL` from `generate_json.py`. -/
def BASE_URL : String :=
  "https://raw.githubusercontent.com/xtianxian/Linux-Rootfs/refs/heads/main"

/-- `VALID_ABIS` from `generate_json.py`. -/
def VALID_ABIS : List String :=
  ["arm64", "armhf", "amd64", "i386", "x86", "x86_64", "aarch64"]

/-- `UBUNTU_VERSION_MAP` from `generate_json.py` (a dict, keys in
insertion order). -/
def UBUNTU_VERSION_MAP : List (String × String) :=
  [("14.04", "Trusty Tahr"),
   ("16.04", "Xenial Xerus"),
   ("18.04", "Bionic Beaver"),
   ("20.04", "Focal Fossa"),
   ("22.04", "Jammy Jellyfish"),
   ("24.04", "Noble Numbat")]

/-- Python `dict.get(k, dflt)` on a small string dict. -/
def dictGet (d : List (String × String)) (k dflt : String) : String :=
  match d.find? (fun e => e.1 == k) with
  | some e => e.2
  | none => dflt

/-- `get_file_size` (`os.path.getsize`) applied to a name inside a
directory listing.  The script only calls it on a file name it just
obtained from `os.listdir`, so the fall-through cases are unreachable
there. -/
def get_file_size (entries : List (String × FSNode)) (name : String) : Nat :=
  match lookupEntry entries name with
  | some (.file sz _) => sz
  | _ => 0

/-- `get_relative_url` from `generate_json.py`. -/
def get_relative_url (version arch file_name os_type : String) : String :=
  BASE_URL ++ "/" ++ os_type ++ "/" ++ version ++ "/" ++ arch ++ "/" ++ file_name

/-- `get_md5_checksum` from `generate_json.py`: open the sidecar file,
`read().strip().split()[0]`; any exception (missing file, path being a
directory, unreadable file, or `[0]` of an empty token list) is caught
and `None` is returned. -/
def get_md5_checksum (entries : List (String × FSNode)) (md5Name : String) : Option String :=
  match lookupEntry entries md5Name with
  | some (.file _ (some content)) =>
    match pySplit (pyStrip content) with
    | [] => none
    | tok :: _ => some tok
  | _ => none

/-- The diagnostic the script prints when `get_md5_checksum` catches an
exception (the trailing exception text is elided). -/
def md5ErrorLog (md5_file_path : String) : String :=
  "Error reading MD5 file " ++ md5_file_path

-- The output data model (dicts keep insertion order).

/-- One architecture's record in the output JSON. -/
structure ArchData where
  file_name : String
  download_size : Nat
  download_url : String
  md5_checksum : String
deriving Repr, DecidableEq

/-- One version's record: `codename` then the `architectures` dict. -/
structure VersionData where
  codename : String
  architectures : List (String × ArchData)
deriving Repr, DecidableEq

/-- One distribution's record: `name` then the `versions` dict. -/
structure OsData where
  name : String
  versions : List (String × VersionData)
deriving Repr, DecidableEq

/-- The whole output document. -/
structure Catalog where
  distributions : List OsData
deriving Repr, DecidableEq

/-- The `arch_data` dict built at lines 88-93 of the script for one
matching archive file. -/
def mkArchData (os_type version arch : String) (entries : List (String × FSNode))
    (file_name md5_checksum : String) : ArchData :=
  { file_name := file_name
    download_size := get_file_size entries file_name
    download_url := get_relative_url version arch file_name os_type
    md5_checksum := md5_checksum }

/-- One iteration of the inner file loop (lines 77-95): the accumulator is
the architecture entry recorded so far (if any) and the diagnostics
printed so far. -/
def archStep (os_type version arch arch_path : String) (entries : List (String × FSNode))
    (acc : Option ArchData × List String) (file_name : String) :
    Option ArchData × List String :=
  if pyEndsWith file_name "-rootfs.tar.gz" then
    match get_md5_checksum entries (file_name ++ ".md5") with
    | some md5 => (some (mkArchData os_type version arch entries file_name md5), acc.2)
    | none => (acc.1, acc.2 ++ [md5ErrorLog (pathJoin arch_path (file_name ++ ".md5"))])
  else acc

/-- The inner file loop over an architecture directory's listing, in
`os.listdir` order (this loop is not sorted in the script). -/
def processArchFiles (os_type version arch arch_path : String)
    (entries : List (String × FSNode)) : Option ArchData × List String :=
  entries.foldl (fun acc e => archStep os_type version arch arch_path entries acc e.1)
    (none, [])

/-- Ascending sort order on directory entries by name, as used for the
architecture listing (`sorted(os.listdir(version_path))`). -/
def nameAsc (a b : String × FSNode) : Prop := pyStrLe a.1 b.1 = true

/-- Descending sort order on directory entries by name, as used for the
version listing (`sorted(..., reverse=True)`); a stable sort with this
order yields exactly Python's `reverse=True` result. -/
def nameDesc (a b : String × FSNode) : Prop := pyStrLe b.1 a.1 = true

instance : DecidableRel nameAsc :=
  fun a b => inferInstanceAs (Decidable (pyStrLe a.1 b.1 = true))

instance : DecidableRel nameDesc :=
  fun a b => inferInstanceAs (Decidable (pyStrLe b.1 a.1 = true))

/-- The accumulator of the architecture loop: the `architectures` dict,
the `has_valid_arch` flag, and the diagnostics printed so far. -/
structure ArchAcc where
  archs : List (String × ArchData)
  hasValid : Bool
  logs : List String
deriving Repr, DecidableEq

/-- One iteration of the architecture loop (lines 68-95): skip names not
in `VALID_ABIS`, skip non-directories, then run the file loop; a found
entry is stored under the `arch` key and sets `has_valid_arch`. -/
def buildArchsStep (os_type version version_path : String) (acc : ArchAcc)
    (e : String × FSNode) : ArchAcc :=
  if e.1 ∈ VALID_ABIS then
    match e.2 with
    | .dir archEntries =>
      let r := processArchFiles os_type version e.1 (pathJoin version_path e.1) archEntries
      match r.1 with
      | some a =>
        { archs := acc.archs ++ [(e.1, a)], hasValid := true, logs := acc.logs ++ r.2 }
      | none => { acc with logs := acc.logs ++ r.2 }
    | .file _ _ => acc
  else acc

/-- The architecture loop over a version directory: sorted ascending by
name, starting from an empty dict and a cleared flag. -/
def buildArchs (os_type version version_path : String)
    (entries : List (String × FSNode)) : ArchAcc :=
  (entries.insertionSort nameAsc).foldl (buildArchsStep os_type version version_path)
    ⟨[], false, []⟩

/-- The codename computation (lines 57-61). -/
def resolveCodename (os_type version : String) : String :=
  if os_type == "ubuntu" then
    pyTitle (dictGet UBUNTU_VERSION_MAP version "")
  else
    pyCapitalize os_type ++ "-" ++ version

/-- One iteration of the version loop (lines 52-98): skip non-directories;
otherwise build the version's data and keep it only when
`has_valid_arch` is set.  Returns the version entry to add (if any) and
the diagnostics printed. -/
def processVersionEntry (os_type os_type_path : String) (e : String × FSNode) :
    Option (String × VersionData) × List String :=
  match e.2 with
  | .file _ _ => (none, [])
  | .dir ventries =>
    let version_path := pathJoin os_type_path e.1
    let acc := buildArchs os_type e.1 version_path ventries
    let vd : VersionData := { codename := resolveCodename os_type e.1,
                              architectures := acc.archs }
    (if acc.hasValid then some (e.1, vd) else none, acc.logs)

/-- One iteration of the version loop threaded through an accumulator of
the `versions` dict and the printed diagnostics. -/
def buildVersionsStep (os_type os_type_path : String)
    (acc : List (String × VersionData) × List String) (e : String × FSNode) :
    List (String × VersionData) × List String :=
  let r := processVersionEntry os_type os_type_path e
  match r.1 with
  | some kv => (acc.1 ++ [kv], acc.2 ++ r.2)
  | none => (acc.1, acc.2 ++ r.2)

/-- The version loop over an OS-type directory: sorted descending by name
(`sorted(os.listdir(os_type_path), reverse=True)`). -/
def buildVersions (os_type os_type_path : String)
    (entries : List (String × FSNode)) : List (String × VersionData) × List String :=
  (entries.insertionSort nameDesc).foldl (buildVersionsStep os_type os_type_path) ([], [])

/-- One iteration of the OS-type loop (lines 43-100).  `os.path.exists`
false: skipped silently.  The path existing as a regular file makes the
unguarded `os.listdir(os_type_path)` raise `NotADirectoryError`, which
nothing catches: the run dies, modelled as `.error`. -/
def processOsType (base_dir : String) (base : List (String × FSNode)) (os_type : String) :
    Except String (Option OsData × List String) :=
  match lookupEntry base os_type with
  | none => .ok (none, [])
  | some (.file _ _) => .error ("NotADirectoryError: " ++ pathJoin base_dir os_type)
  | some (.dir entries) =>
    let (vers, logs) := buildVersions os_type (pathJoin base_dir os_type) entries
    .ok (some { name := pyCapitalize os_type, versions := vers }, logs)

/-- The OS-type loop over the fixed list, collecting the distributions
that exist and all diagnostics, or dying on the first uncaught
exception. -/
def runOsTypes (base_dir : String) (base : List (String × FSNode)) :
    List String → Except String (List OsData × List String)
  | [] => .ok ([], [])
  | t :: ts =>
    match processOsType base_dir base t with
    | .error e => .error e
    | .ok (od, logs) =>
      match runOsTypes base_dir base ts with
      | .error e => .error e
      | .ok (rest, logs2) =>
        .ok ((match od with | some d => d :: rest | none => rest), logs ++ logs2)

/-- The whole module-level script on a modelled base directory: the
catalog it assembles and the diagnostics it prints, or the uncaught
exception message. -/
def runScript (base_dir : String) (base : List (String × FSNode)) :
    Except String (Catalog × List String) :=
  (runOsTypes base_dir base ["alpine", "ubuntu"]).map (fun p => (⟨p.1⟩, p.2))

-- Serialization: `json.dump(rootfs_metadata, json_file, indent=4)`.

/-- Indentation for nesting level `n` under `indent=4`. -/
def jsonIndent (n : Nat) : String := String.mk (List.replicate (4 * n) ' ')

/-- One hexadecimal digit, lower case. -/
def hexDigit (n : Nat) : Char :=
  if n < 10 then Char.ofNat (48 + n) else Char.ofNat (87 + n)

/-- Four hexadecimal digits. -/
def hex4 (n : Nat) : String :=
  String.mk [hexDigit (n / 4096 % 16), hexDigit (n / 256 % 16),
             hexDigit (n / 16 % 16), hexDigit (n % 16)]

/-- JSON escaping of one character, `ensure_ascii=True` (the `json`
module's default): characters outside printable ASCII become `\uXXXX`
escapes, astral ones a surrogate pair. -/
def jsonEscapeChar (c : Char) : String :=
  if c = '"' then "\\\""
  else if c = '\\' then "\\\\"
  else if c = '\n' then "\\n"
  else if c = '\r' then "\\r"
  else if c = '\t' then "\\t"
  else if c = '\x08' then "\\b"
  else if c = '\x0c' then "\\f"
  else if c.toNat < 32 || 126 < c.toNat then
    if c.toNat < 65536 then "\\u" ++ hex4 c.toNat
    else
      "\\u" ++ hex4 (55296 + (c.toNat - 65536) / 1024) ++
      "\\u" ++ hex4 (56320 + (c.toNat - 65536) % 1024)
  else String.mk [c]

/-- A JSON string literal. -/
def jsonStr (s : String) : String :=
  "\"" ++ String.join (s.data.map jsonEscapeChar) ++ "\""

/-- Join rendered items with a separator. -/
def joinSep (sep : String) : List String → String
  | [] => ""
  | [x] => x
  | x :: y :: xs => x ++ sep ++ joinSep sep (y :: xs)

/-- Render a JSON object whose opening brace sits at nesting level
`lvl`, with already rendered field values, in insertion order. -/
def renderObj (lvl : Nat) (fields : List (String × String)) : String :=
  if fields.isEmpty then "\x7b\x7d"
  else
    "\x7b\n" ++
    joinSep ",\n" (fields.map (fun f => jsonIndent (lvl + 1) ++ jsonStr f.1 ++ ": " ++ f.2)) ++
    "\n" ++ jsonIndent lvl ++ "\x7d"

/-- Render a JSON array whose opening bracket sits at nesting level
`lvl`, with already rendered items. -/
def renderArr (lvl : Nat) (items : List String) : String :=
  if items.isEmpty then "[]"
  else
    "[\n" ++ joinSep ",\n" (items.map (fun s => jsonIndent (lvl + 1) ++ s)) ++
    "\n" ++ jsonIndent lvl ++ "]"

/-- Render one architecture record. -/
def renderArchData (lvl : Nat) (a : ArchData) : String :=
  renderObj lvl
    [("file_name", jsonStr a.file_name),
     ("download_size", Nat.repr a.download_size),
     ("download_url", jsonStr a.download_url),
     ("md5_checksum", jsonStr a.md5_checksum)]

/-- Render one version record. -/
def renderVersionData (lvl : Nat) (v : VersionData) : String :=
  renderObj lvl
    [("codename", jsonStr v.codename),
     ("architectures",
      renderObj (lvl + 1) (v.architectures.map (fun p => (p.1, renderArchData (lvl + 2) p.2))))]

/-- Render one distribution record. -/
def renderOsData (lvl : Nat) (o : OsData) : String :=
  renderObj lvl
    [("name", jsonStr o.name),
     ("versions",
      renderObj (lvl + 1) (o.versions.map (fun p => (p.1, renderVersionData (lvl + 2) p.2))))]

/-- Render the whole document, as `json.dump(..., indent=4)` writes it. -/
def renderCatalog (c : Catalog) : String :=
  renderObj 0 [("distributions", renderArr 1 (c.distributions.map (renderOsData 2)))]

/-- The full pipeline: run the script and serialize the catalog it built
(the bytes written to `rootfs_metadata.json`), or the uncaught
exception. -/
def runAndRender (base_dir : String) (base : List (String × FSNode)) :
    Except String String :=
  (runScript base_dir base).map (fun p => renderCatalog p.1)

-- Derived views used to state the claims.

/-- The names in a listing that end in the archive suffix, in listing
order. -/
def matchNames (names : List String) : List String :=
  names.filter (fun n => pyEndsWith n "-rootfs.tar.gz")

/-- The matching names whose sidecar read (looked up in `entries`)
succeeds, in listing order. -/
def okMatches (entries : List (String × FSNode)) (names : List String) : List String :=
  (matchNames names).filter (fun n => (get_md5_checksum entries (n ++ ".md5")).isSome)

/-- The architecture entry the file loop records for a matching file
name, when its sidecar read succeeds. -/
def recordedEntry (os_type version arch : String) (entries : List (String × FSNode))
    (n : String) : Option ArchData :=
  (get_md5_checksum entries (n ++ ".md5")).map (mkArchData os_type version arch entries n)

-- Order-theoretic facts about the Python string comparison.

theorem char_toNat_inj {a b : Char} (h : a.toNat = b.toNat) : a = b := by
  apply Char.ext
  exact UInt32.ext h

theorem charListLt_asymm :
    ∀ {a b : List Char}, charListLt a b = true → charListLt b a = false
  | _, [], h => by simp [charListLt] at h
  | [], _ :: _, _ => by simp [charListLt]
  | a :: as, b :: bs, h => by
    simp only [charListLt] at h ⊢
    by_cases hab : a.toNat < b.toNat
    · have : ¬ b.toNat < a.toNat := by omega
      simp [hab, this]
    · by_cases hba : b.toNat < a.toNat
      · simp [hab, hba] at h
      · simp only [hab, hba, if_neg, if_false] at h ⊢
        simp [charListLt_asymm h]

theorem pyStrLe_total (a b : String) : pyStrLe a b = true ∨ pyStrLe b a = true := by
  unfold pyStrLe
  by_cases h : charListLt b.data a.data = true
  · right
    simp [charListLt_asymm h]
  · left
    simp only [Bool.not_eq_true] at h
    simp [h]

/-- `b ≤ c` (as `¬ c < b`) and `c < a` imply `b < a`, for the Python
string comparison. -/
theorem charListLt_of_nlt_of_lt :
    ∀ (a b c : List Char), charListLt c b = false → charListLt c a = true →
      charListLt b a = true
  | a, b, [], h1, _ => by
    cases b with
    | nil => cases a with
      | nil => simp [charListLt] at *
      | cons x xs => simp [charListLt]
    | cons y ys => simp [charListLt] at h1
  | [], _, _ :: _, _, h2 => by simp [charListLt] at h2
  | x :: xs, b, z :: zs, h1, h2 => by
    cases b with
    | nil => simp [charListLt]
    | cons y ys =>
      simp only [charListLt] at h1 h2 ⊢
      by_cases hzy : z.toNat < y.toNat
      · simp [hzy] at h1
      · by_cases hyz : y.toNat < z.toNat
        · by_cases hzx : z.toNat < x.toNat
          · have : y.toNat < x.toNat := by omega
            simp [this]
          · by_cases hxz : x.toNat < z.toNat
            · simp [hzx, hxz] at h2
            · have : y.toNat < x.toNat := by omega
              simp [this]
        · have hey : y = z := char_toNat_inj (by omega)
          subst hey
          simp only [hzy, hyz, if_neg, if_false] at h1
          by_cases hzx : y.toNat < x.toNat
          · simp [hzx]
          · by_cases hxz : x.toNat < y.toNat
            · simp [hzx, hxz] at h2
            · simp only [hzx, hxz, if_neg, if_false] at h2 ⊢
              exact charListLt_of_nlt_of_lt xs ys zs h1 h2

theorem pyStrLe_trans {a b c : String} (h1 : pyStrLe a b = true)
    (h2 : pyStrLe b c = true) : pyStrLe a c = true := by
  unfold pyStrLe at h1 h2 ⊢
  simp only [Bool.not_eq_true'] at h1 h2 ⊢
  by_cases h : charListLt c.data a.data = true
  · have hba := charListLt_of_nlt_of_lt a.data b.data c.data h2 h
    rw [hba] at h1
    exact absurd h1 (by simp)
  · simpa using h

theorem sorted_nameAsc (l : List (String × FSNode)) :
    (l.insertionSort nameAsc).Pairwise nameAsc := by
  haveI : IsTotal (String × FSNode) nameAsc := ⟨fun a b => pyStrLe_total a.1 b.1⟩
  haveI : IsTrans (String × FSNode) nameAsc := ⟨fun _ _ _ h1 h2 => pyStrLe_trans h1 h2⟩
  exact List.sorted_insertionSort nameAsc l

theorem sorted_nameDesc (l : List (String × FSNode)) :
    (l.insertionSort nameDesc).Pairwise nameDesc := by
  haveI : IsTotal (String × FSNode) nameDesc := ⟨fun a b => pyStrLe_total b.1 a.1⟩
  haveI : IsTrans (String × FSNode) nameDesc := ⟨fun _ _ _ h1 h2 => pyStrLe_trans h2 h1⟩
  exact List.sorted_insertionSort nameDesc l

-- Characterizations of the three loops.

theorem getLast?_cons_cases {α : Type} (a : α) (l : List α) :
    (a :: l).getLast? = some (match l.getLast? with | some b => b | none => a) := by
  induction l generalizing a with
  | nil => rfl
  | cons b bs ih =>
    rw [List.getLast?_cons_cons, ih b]

/-- What the file loop's recorded entry is, over any traversal list and
starting accumulator: the entry of the last matching name whose sidecar
read succeeded, else the starting accumulator's entry. -/
theorem archFold_fst (os_type version arch arch_path : String)
    (entries : List (String × FSNode)) :
    ∀ (l : List (String × FSNode)) (acc : Option ArchData × List String),
      (l.foldl (fun a e => archStep os_type version arch arch_path entries a e.1) acc).1 =
      (match (okMatches entries (l.map Prod.fst)).getLast? with
       | some n => recordedEntry os_type version arch entries n
       | none => acc.1)
  | [], acc => rfl
  | e :: l, acc => by
    rw [List.foldl_cons, archFold_fst os_type version arch arch_path entries l]
    by_cases hm : pyEndsWith e.1 "-rootfs.tar.gz" = true
    · cases hc : get_md5_checksum entries (e.1 ++ ".md5") with
      | some c =>
        have hok : okMatches entries ((e :: l).map Prod.fst) =
            e.1 :: okMatches entries (l.map Prod.fst) := by
          simp [okMatches, matchNames, hm, hc]
        rw [hok, getLast?_cons_cases]
        cases hg : (okMatches entries (l.map Prod.fst)).getLast? with
        | some n => simp
        | none => simp [archStep, hm, hc, recordedEntry]
      | none =>
        have hok : okMatches entries ((e :: l).map Prod.fst) =
            okMatches entries (l.map Prod.fst) := by
          simp [okMatches, matchNames, hm, hc]
        rw [hok]
        cases hg : (okMatches entries (l.map Prod.fst)).getLast? with
        | some n => rfl
        | none => simp [archStep, hm, hc]
    · have hok : okMatches entries ((e :: l).map Prod.fst) =
          okMatches entries (l.map Prod.fst) := by
        simp only [Bool.not_eq_true] at hm
        simp [okMatches, matchNames, hm]
      rw [hok]
      cases hg : (okMatches entries (l.map Prod.fst)).getLast? with
      | some n => rfl
      | none =>
        simp only [Bool.not_eq_true] at hm
        simp [archStep, hm]

/-- Each pass of the architecture loop only appends entries: the final
dict extends the starting one by a suffix whose keys come from the
traversed names in order, and the flag is set exactly when the suffix is
nonempty (or was already set). -/
theorem buildArchsFold_spec (os_type version version_path : String) :
    ∀ (l : List (String × FSNode)) (acc : ArchAcc),
      ∃ s : List (String × ArchData),
        (l.foldl (buildArchsStep os_type version version_path) acc).archs =
          acc.archs ++ s ∧
        (l.foldl (buildArchsStep os_type version version_path) acc).hasValid =
          (acc.hasValid || !s.isEmpty) ∧
        (s.map Prod.fst).Sublist (l.map Prod.fst)
  | [], acc => ⟨[], by simp⟩
  | e :: l, acc => by
    rw [List.foldl_cons]
    by_cases habi : e.1 ∈ VALID_ABIS
    · cases hnode : e.2 with
      | file sz c =>
        have hstep : buildArchsStep os_type version version_path acc e = acc := by
          unfold buildArchsStep
          rw [if_pos habi, hnode]
        rw [hstep]
        obtain ⟨s, h1, h2, h3⟩ := buildArchsFold_spec os_type version version_path l acc
        exact ⟨s, h1, h2, h3.cons e.1⟩
      | dir archEntries =>
        cases hfound : (processArchFiles os_type version e.1
            (pathJoin version_path e.1) archEntries).1 with
        | none =>
          obtain ⟨s, h1, h2, h3⟩ := buildArchsFold_spec os_type version version_path l
            (buildArchsStep os_type version version_path acc e)
          have ha : (buildArchsStep os_type version version_path acc e).archs =
              acc.archs := by
            unfold buildArchsStep
            rw [if_pos habi, hnode]
            simp [hfound]
          have hv : (buildArchsStep os_type version version_path acc e).hasValid =
              acc.hasValid := by
            unfold buildArchsStep
            rw [if_pos habi, hnode]
            simp [hfound]
          rw [ha] at h1
          rw [hv] at h2
          exact ⟨s, h1, h2, h3.cons e.1⟩
        | some a =>
          obtain ⟨s, h1, h2, h3⟩ := buildArchsFold_spec os_type version version_path l
            (buildArchsStep os_type version version_path acc e)
          have ha : (buildArchsStep os_type version version_path acc e).archs =
              acc.archs ++ [(e.1, a)] := by
            unfold buildArchsStep
            rw [if_pos habi, hnode]
            simp [hfound]
          have hv : (buildArchsStep os_type version version_path acc e).hasValid =
              true := by
            unfold buildArchsStep
            rw [if_pos habi, hnode]
            simp [hfound]
          rw [ha] at h1
          rw [hv] at h2
          refine ⟨(e.1, a) :: s, ?_, ?_, ?_⟩
          · rw [h1]
            simp
          · rw [h2]
            simp
          · exact h3.cons₂ e.1
    · have hstep : buildArchsStep os_type version version_path acc e = acc := by
        unfold buildArchsStep
        rw [if_neg habi]
      rw [hstep]
      obtain ⟨s, h1, h2, h3⟩ := buildArchsFold_spec os_type version version_path l acc
      exact ⟨s, h1, h2, h3.cons e.1⟩

/-- `has_valid_arch` is set at the end of the architecture loop exactly
when the `architectures` dict is nonempty. -/
theorem buildArchs_hasValid (os_type version version_path : String)
    (entries : List (String × FSNode)) :
    (buildArchs os_type version version_path entries).hasValid =
      !(buildArchs os_type version version_path entries).archs.isEmpty := by
  unfold buildArchs
  obtain ⟨s, h1, h2, -⟩ := buildArchsFold_spec os_type version version_path
    (entries.insertionSort nameAsc) ⟨[], false, []⟩
  rw [h1, h2]
  simp

/-- The keys of the architecture dict form a sublist of the sorted
traversal's names. -/
theorem buildArchs_keys_sublist (os_type version version_path : String)
    (entries : List (String × FSNode)) :
    ((buildArchs os_type version version_path entries).archs.map Prod.fst).Sublist
      ((entries.insertionSort nameAsc).map Prod.fst) := by
  unfold buildArchs
  obtain ⟨s, h1, -, h3⟩ := buildArchsFold_spec os_type version version_path
    (entries.insertionSort nameAsc) ⟨[], false, []⟩
  rw [h1]
  simpa using h3

/-- When the version-loop body emits an entry, its key is the traversed
directory name. -/
theorem processVersionEntry_key (os_type os_type_path : String) (e : String × FSNode)
    (kv : String × VersionData)
    (h : (processVersionEntry os_type os_type_path e).1 = some kv) : kv.1 = e.1 := by
  unfold processVersionEntry at h
  cases hnode : e.2 with
  | file sz c => rw [hnode] at h; simp at h
  | dir ventries =>
    rw [hnode] at h
    simp only at h
    by_cases hv : (buildArchs os_type e.1 (pathJoin os_type_path e.1) ventries).hasValid = true
    · rw [if_pos hv] at h
      cases h
      rfl
    · rw [if_neg hv] at h
      cases h

/-- Each pass of the version loop only appends entries, with keys drawn
in order from the traversed names. -/
theorem buildVersionsFold_keys (os_type os_type_path : String) :
    ∀ (l : List (String × FSNode)) (acc : List (String × VersionData) × List String),
      ∃ s : List (String × VersionData),
        (l.foldl (buildVersionsStep os_type os_type_path) acc).1 = acc.1 ++ s ∧
        (s.map Prod.fst).Sublist (l.map Prod.fst)
  | [], acc => ⟨[], by simp⟩
  | e :: l, acc => by
    rw [List.foldl_cons]
    obtain ⟨s, h1, h3⟩ := buildVersionsFold_keys os_type os_type_path l
      (buildVersionsStep os_type os_type_path acc e)
    cases hkv : (processVersionEntry os_type os_type_path e).1 with
    | none =>
      have hstep : (buildVersionsStep os_type os_type_path acc e).1 = acc.1 := by
        unfold buildVersionsStep
        simp only [hkv]
      rw [hstep] at h1
      exact ⟨s, h1, h3.cons e.1⟩
    | some kv =>
      have hstep : (buildVersionsStep os_type os_type_path acc e).1 = acc.1 ++ [kv] := by
        unfold buildVersionsStep
        simp only [hkv]
      rw [hstep] at h1
      refine ⟨kv :: s, ?_, ?_⟩
      · rw [h1]
        simp
      · have := processVersionEntry_key os_type os_type_path e kv hkv
        rw [List.map_cons, this]
        exact h3.cons₂ e.1

-- Claim theorems.

/-- C1: for every archive file ending in the fixed suffix
"-rootfs.tar.gz" whose sidecar checksum file exists and yields a
checksum, the recorded Architecture entry has `file_name` equal to the
archive file name, `download_size` equal to the exact byte size of the
archive file on disk, `download_url` equal to the fixed base URL
followed by "/os_type/version/arch/file_name", and `md5_checksum` equal
to the first whitespace-delimited token of the sidecar's contents after
stripping leading/trailing whitespace. -/
theorem c1_wellformed_pair_recorded
    (os_type version arch arch_path file_name content : String)
    (entries : List (String × FSNode)) (sz msz : Nat) (mcontent : Option String)
    (acc : Option ArchData × List String) (tok : String) (toks : List String)
    (hsuffix : pyEndsWith file_name "-rootfs.tar.gz" = true)
    (harchive : lookupEntry entries file_name = some (.file sz mcontent))
    (hsidecar : lookupEntry entries (file_name ++ ".md5") = some (.file msz (some content)))
    (htoks : pySplit (pyStrip content) = tok :: toks) :
    (archStep os_type version arch arch_path entries acc file_name).1 =
      some { file_name := file_name
             download_size := sz
             download_url := BASE_URL ++ "/" ++ os_type ++ "/" ++ version ++ "/" ++
               arch ++ "/" ++ file_name
             md5_checksum := tok } := by
  have hmd5 : get_md5_checksum entries (file_name ++ ".md5") = some tok := by
    simp [get_md5_checksum, hsidecar, htoks]
  unfold archStep
  rw [if_pos hsuffix, hmd5]
  unfold mkArchData get_file_size get_relative_url
  rw [harchive]

theorem c1_witness :
    (archStep "ubuntu" "22.04" "amd64" "./ubuntu/22.04/amd64"
      [("u-rootfs.tar.gz", FSNode.file 500000 none),
       ("u-rootfs.tar.gz.md5", FSNode.file 40 (some " abc123 u-rootfs.tar.gz\n"))]
      (none, []) "u-rootfs.tar.gz").1 =
      some { file_name := "u-rootfs.tar.gz"
             download_size := 500000
             download_url := BASE_URL ++ "/" ++ "ubuntu" ++ "/" ++ "22.04" ++ "/" ++
               "amd64" ++ "/" ++ "u-rootfs.tar.gz"
             md5_checksum := "abc123" } :=
  c1_wellformed_pair_recorded "ubuntu" "22.04" "amd64" "./ubuntu/22.04/amd64"
    "u-rootfs.tar.gz" " abc123 u-rootfs.tar.gz\n"
    [("u-rootfs.tar.gz", FSNode.file 500000 none),
     ("u-rootfs.tar.gz.md5", FSNode.file 40 (some " abc123 u-rootfs.tar.gz\n"))]
    500000 40 none (none, []) "abc123" ["u-rootfs.tar.gz"]
    (by rfl) (by rfl) (by rfl) (by rfl)

/-- C3: a directory entry of a version directory whose name is not in
the fixed architecture allow-list produces no Architecture entry and no
diagnostic, regardless of the directory's contents: the loop body leaves
the accumulator (dict, flag and log) unchanged. -/
theorem c3_invalid_abi_ignored (os_type version version_path : String)
    (acc : ArchAcc) (arch : String) (node : FSNode)
    (h : arch ∉ VALID_ABIS) :
    buildArchsStep os_type version version_path acc (arch, node) = acc := by
  unfold buildArchsStep
  exact if_neg h

theorem c3_witness :
    buildArchsStep "alpine" "3.19" "./alpine/3.19" ⟨[], false, []⟩
      ("mips", FSNode.dir
        [("m-rootfs.tar.gz", FSNode.file 9 (some "data")),
         ("m-rootfs.tar.gz.md5", FSNode.file 3 (some "abc"))]) = ⟨[], false, []⟩ :=
  c3_invalid_abi_ignored "alpine" "3.19" "./alpine/3.19" ⟨[], false, []⟩ "mips"
    (FSNode.dir
      [("m-rootfs.tar.gz", FSNode.file 9 (some "data")),
       ("m-rootfs.tar.gz.md5", FSNode.file 3 (some "abc"))])
    (by decide)

/-- C4: for a matching archive file whose sidecar checksum file is
missing, is unreadable, or strips/splits to no tokens, the loop body
emits one diagnostic, records no Architecture entry for the attempt
(the recorded-entry slot is passed through unchanged), and returns
normally so processing continues. -/
theorem c4_sidecar_failure_logged (os_type version arch arch_path file_name : String)
    (entries : List (String × FSNode)) (acc : Option ArchData × List String)
    (hsuffix : pyEndsWith file_name "-rootfs.tar.gz" = true)
    (hbad : lookupEntry entries (file_name ++ ".md5") = none ∨
      (∃ des, lookupEntry entries (file_name ++ ".md5") = some (.dir des)) ∨
      (∃ sz, lookupEntry entries (file_name ++ ".md5") = some (.file sz none)) ∨
      (∃ sz content, lookupEntry entries (file_name ++ ".md5") =
          some (.file sz (some content)) ∧ pySplit (pyStrip content) = [])) :
    archStep os_type version arch arch_path entries acc file_name =
      (acc.1, acc.2 ++ [md5ErrorLog (pathJoin arch_path (file_name ++ ".md5"))]) := by
  have hmd5 : get_md5_checksum entries (file_name ++ ".md5") = none := by
    rcases hbad with h | ⟨des, h⟩ | ⟨sz, h⟩ | ⟨sz, content, h, htoks⟩
    · simp [get_md5_checksum, h]
    · simp [get_md5_checksum, h]
    · simp [get_md5_checksum, h]
    · simp [get_md5_checksum, h, htoks]
  unfold archStep
  rw [if_pos hsuffix, hmd5]

theorem c4_witness :
    archStep "alpine" "3.19" "x86" "./alpine/3.19/x86"
      [("a-rootfs.tar.gz", FSNode.file 7 none)] (none, []) "a-rootfs.tar.gz" =
      (none, [md5ErrorLog (pathJoin "./alpine/3.19/x86" ("a-rootfs.tar.gz" ++ ".md5"))]) :=
  c4_sidecar_failure_logged "alpine" "3.19" "x86" "./alpine/3.19/x86" "a-rootfs.tar.gz"
    [("a-rootfs.tar.gz", FSNode.file 7 none)] (none, []) (by rfl) (Or.inl (by rfl))

/-- C2: a processed version subdirectory's key is added to the
`versions` dict exactly when its architecture dict is nonempty
(`has_valid_arch`); with zero surviving Architecture entries the
`versions` dict is left unchanged, so the version is entirely absent
from the output. -/
theorem c2_version_retained_iff (os_type os_type_path v : String)
    (ventries : List (String × FSNode))
    (acc : List (String × VersionData) × List String) :
    (buildVersionsStep os_type os_type_path acc (v, .dir ventries)).1 =
      (if (buildArchs os_type v (pathJoin os_type_path v) ventries).archs = [] then acc.1
       else acc.1 ++
         [(v, { codename := resolveCodename os_type v,
                architectures :=
                  (buildArchs os_type v (pathJoin os_type_path v) ventries).archs })]) := by
  have hv := buildArchs_hasValid os_type v (pathJoin os_type_path v) ventries
  by_cases he : (buildArchs os_type v (pathJoin os_type_path v) ventries).archs = []
  · rw [if_pos he]
    rw [he] at hv
    simp only [List.isEmpty_nil, Bool.not_true] at hv
    simp [buildVersionsStep, processVersionEntry, hv]
  · rw [if_neg he]
    have : (buildArchs os_type v (pathJoin os_type_path v) ventries).archs.isEmpty = false := by
      cases harch : (buildArchs os_type v (pathJoin os_type_path v) ventries).archs with
      | nil => exact absurd harch he
      | cons x xs => rfl
    rw [this] at hv
    simp only [Bool.not_false] at hv
    simp [buildVersionsStep, processVersionEntry, hv]

/-- C6 counterexample: an architecture directory with two matching
archive files where the last match's sidecar is missing and the earlier
one's is fine; the recorded entry is the earlier file's, not the last
match's in listing order. -/
theorem c6_counterexample :
    (matchNames (([("a-rootfs.tar.gz", FSNode.file 5 (some "p")),
        ("a-rootfs.tar.gz.md5", FSNode.file 4 (some "aaa")),
        ("b-rootfs.tar.gz", FSNode.file 7 (some "q"))] :
          List (String × FSNode)).map Prod.fst)).getLast? = some "b-rootfs.tar.gz" ∧
    (processArchFiles "alpine" "3.19" "x86" "./alpine/3.19/x86"
      [("a-rootfs.tar.gz", FSNode.file 5 (some "p")),
       ("a-rootfs.tar.gz.md5", FSNode.file 4 (some "aaa")),
       ("b-rootfs.tar.gz", FSNode.file 7 (some "q"))]).1 =
      some { file_name := "a-rootfs.tar.gz"
             download_size := 5
             download_url := BASE_URL ++ "/alpine/3.19/x86/a-rootfs.tar.gz"
             md5_checksum := "aaa" } :=
  ⟨by rfl, by rfl⟩

/-- C6 (amended): when an architecture directory contains more than one
file matching the archive suffix and every matching file's sidecar read
succeeds, exactly one Architecture entry is recorded for that
architecture, namely the one for the last matching file in directory
listing order. -/
theorem c6_amended_last_match_wins (os_type version arch arch_path : String)
    (entries : List (String × FSNode)) (n : String)
    (_hmulti : 1 < (matchNames (entries.map Prod.fst)).length)
    (hall : ∀ m ∈ matchNames (entries.map Prod.fst),
      (get_md5_checksum entries (m ++ ".md5")).isSome = true)
    (hlast : (matchNames (entries.map Prod.fst)).getLast? = some n) :
    (processArchFiles os_type version arch arch_path entries).1 =
      recordedEntry os_type version arch entries n ∧
    (recordedEntry os_type version arch entries n).isSome = true := by
  have hok : okMatches entries (entries.map Prod.fst) =
      matchNames (entries.map Prod.fst) := List.filter_eq_self.mpr hall
  constructor
  · unfold processArchFiles
    rw [archFold_fst, hok, hlast]
  · have hmem : n ∈ matchNames (entries.map Prod.fst) := by
      obtain ⟨hne, heq⟩ := List.mem_getLast?_eq_getLast hlast
      rw [heq]
      exact List.getLast_mem hne
    have hsome := hall n hmem
    unfold recordedEntry
    cases hc : get_md5_checksum entries (n ++ ".md5") with
    | none =>
      rw [hc] at hsome
      simp at hsome
    | some c => simp

theorem c6_witness :
    (processArchFiles "alpine" "3.19" "x86" "./alpine/3.19/x86"
      [("a-rootfs.tar.gz", FSNode.file 5 (some "p")),
       ("a-rootfs.tar.gz.md5", FSNode.file 4 (some "aaa")),
       ("b-rootfs.tar.gz", FSNode.file 7 (some "q")),
       ("b-rootfs.tar.gz.md5", FSNode.file 4 (some "bbb"))]).1 =
      recordedEntry "alpine" "3.19" "x86"
        [("a-rootfs.tar.gz", FSNode.file 5 (some "p")),
         ("a-rootfs.tar.gz.md5", FSNode.file 4 (some "aaa")),
         ("b-rootfs.tar.gz", FSNode.file 7 (some "q")),
         ("b-rootfs.tar.gz.md5", FSNode.file 4 (some "bbb"))] "b-rootfs.tar.gz" ∧
    (recordedEntry "alpine" "3.19" "x86"
      [("a-rootfs.tar.gz", FSNode.file 5 (some "p")),
       ("a-rootfs.tar.gz.md5", FSNode.file 4 (some "aaa")),
       ("b-rootfs.tar.gz", FSNode.file 7 (some "q")),
       ("b-rootfs.tar.gz.md5", FSNode.file 4 (some "bbb"))] "b-rootfs.tar.gz").isSome
      = true :=
  c6_amended_last_match_wins "alpine" "3.19" "x86" "./alpine/3.19/x86"
    [("a-rootfs.tar.gz", FSNode.file 5 (some "p")),
     ("a-rootfs.tar.gz.md5", FSNode.file 4 (some "aaa")),
     ("b-rootfs.tar.gz", FSNode.file 7 (some "q")),
     ("b-rootfs.tar.gz.md5", FSNode.file 4 (some "bbb"))] "b-rootfs.tar.gz"
    (by decide) (by decide) (by decide)

/-- C7: the architectures dict holds at most one entry per identifier
(its key list is duplicate-free when the version directory's listing
is); the file loop's surviving entry is the one for the last matching
file in listing order whose sidecar read succeeded (so an earlier
success persists when a later match's sidecar read fails); and the
version-inclusion flag equals nonemptiness of the dict, so that earlier
success also keeps the version included. -/
theorem c7_arch_dict (os_type version version_path arch arch_path : String)
    (entries archEntries : List (String × FSNode))
    (hnd : (entries.map Prod.fst).Nodup) :
    ((buildArchs os_type version version_path entries).archs.map Prod.fst).Nodup ∧
    (buildArchs os_type version version_path entries).hasValid =
      !(buildArchs os_type version version_path entries).archs.isEmpty ∧
    (processArchFiles os_type version arch arch_path archEntries).1 =
      (match (okMatches archEntries (archEntries.map Prod.fst)).getLast? with
       | some n => recordedEntry os_type version arch archEntries n
       | none => none) := by
  refine ⟨?_, buildArchs_hasValid os_type version version_path entries, ?_⟩
  · have hperm : (entries.insertionSort nameAsc).Perm entries :=
      List.perm_insertionSort nameAsc entries
    have hnd2 : ((entries.insertionSort nameAsc).map Prod.fst).Nodup :=
      ((hperm.map Prod.fst).nodup_iff).mpr hnd
    exact hnd2.sublist (buildArchs_keys_sublist os_type version version_path entries)
  · unfold processArchFiles
    rw [archFold_fst]

theorem c7_witness :
    ((buildArchs "alpine" "3.19" "./alpine/3.19"
      [("x86", FSNode.dir [("x-rootfs.tar.gz", FSNode.file 3 (some "d")),
        ("x-rootfs.tar.gz.md5", FSNode.file 2 (some "md5x"))]),
       ("mips", FSNode.dir [])]).archs.map Prod.fst).Nodup ∧
    (buildArchs "alpine" "3.19" "./alpine/3.19"
      [("x86", FSNode.dir [("x-rootfs.tar.gz", FSNode.file 3 (some "d")),
        ("x-rootfs.tar.gz.md5", FSNode.file 2 (some "md5x"))]),
       ("mips", FSNode.dir [])]).hasValid =
      !(buildArchs "alpine" "3.19" "./alpine/3.19"
        [("x86", FSNode.dir [("x-rootfs.tar.gz", FSNode.file 3 (some "d")),
          ("x-rootfs.tar.gz.md5", FSNode.file 2 (some "md5x"))]),
         ("mips", FSNode.dir [])]).archs.isEmpty ∧
    (processArchFiles "alpine" "3.19" "x86" "./alpine/3.19/x86"
      [("a-rootfs.tar.gz", FSNode.file 5 (some "p")),
       ("a-rootfs.tar.gz.md5", FSNode.file 4 (some "ck1 rest")),
       ("b-rootfs.tar.gz", FSNode.file 7 (some "q"))]).1 =
      (match (okMatches
          [("a-rootfs.tar.gz", FSNode.file 5 (some "p")),
           ("a-rootfs.tar.gz.md5", FSNode.file 4 (some "ck1 rest")),
           ("b-rootfs.tar.gz", FSNode.file 7 (some "q"))]
          (([("a-rootfs.tar.gz", FSNode.file 5 (some "p")),
             ("a-rootfs.tar.gz.md5", FSNode.file 4 (some "ck1 rest")),
             ("b-rootfs.tar.gz", FSNode.file 7 (some "q"))] :
               List (String × FSNode)).map Prod.fst)).getLast? with
       | some n => recordedEntry "alpine" "3.19" "x86"
           [("a-rootfs.tar.gz", FSNode.file 5 (some "p")),
            ("a-rootfs.tar.gz.md5", FSNode.file 4 (some "ck1 rest")),
            ("b-rootfs.tar.gz", FSNode.file 7 (some "q"))] n
       | none => none) :=
  c7_arch_dict "alpine" "3.19" "./alpine/3.19" "x86" "./alpine/3.19/x86"
    [("x86", FSNode.dir [("x-rootfs.tar.gz", FSNode.file 3 (some "d")),
      ("x-rootfs.tar.gz.md5", FSNode.file 2 (some "md5x"))]),
     ("mips", FSNode.dir [])]
    [("a-rootfs.tar.gz", FSNode.file 5 (some "p")),
     ("a-rootfs.tar.gz.md5", FSNode.file 4 (some "ck1 rest")),
     ("b-rootfs.tar.gz", FSNode.file 7 (some "q"))]
    (by decide)

/-- C8: version keys appear in the output `versions` mapping in
descending lexicographic string order (by code point, so "9.0" sorts
before "10.0"), and architecture keys appear in each `architectures`
mapping in ascending lexicographic order; both mappings are built by
iterating the correspondingly sorted listings. -/
theorem c8_output_orders (os_type os_type_path version version_path : String)
    (osEntries ventries : List (String × FSNode)) :
    ((buildVersions os_type os_type_path osEntries).1.map Prod.fst).Pairwise
      (fun a b => pyStrLe b a = true) ∧
    ((buildArchs os_type version version_path ventries).archs.map Prod.fst).Pairwise
      (fun a b => pyStrLe a b = true) := by
  constructor
  · obtain ⟨s, h1, h3⟩ := buildVersionsFold_keys os_type os_type_path
      (osEntries.insertionSort nameDesc) ([], [])
    have hsorted : ((osEntries.insertionSort nameDesc).map Prod.fst).Pairwise
        (fun a b => pyStrLe b a = true) :=
      List.pairwise_map.mpr ((sorted_nameDesc osEntries).imp (fun h => h))
    unfold buildVersions
    rw [h1]
    simpa using hsorted.sublist h3
  · have hsorted : ((ventries.insertionSort nameAsc).map Prod.fst).Pairwise
        (fun a b => pyStrLe a b = true) :=
      List.pairwise_map.mpr ((sorted_nameAsc ventries).imp (fun h => h))
    exact hsorted.sublist (buildArchs_keys_sublist os_type version version_path ventries)

/-- C9: for an included version, the codename is the fixed
version-to-codename table's value when the OS type is "ubuntu" and the
version is a key, the empty string when it is not a key, and the
synthesized "Capitalized-os_type - version" string for any other OS
type. -/
theorem c9_codename (os_type version : String) :
    (∀ cn, (version, cn) ∈ UBUNTU_VERSION_MAP → resolveCodename "ubuntu" version = cn) ∧
    (version ∉ UBUNTU_VERSION_MAP.map Prod.fst → resolveCodename "ubuntu" version = "") ∧
    (os_type ≠ "ubuntu" → resolveCodename os_type version =
      pyCapitalize os_type ++ "-" ++ version) := by
  refine ⟨?_, ?_, ?_⟩
  · intro cn hmem
    simp only [UBUNTU_VERSION_MAP, List.mem_cons, List.not_mem_nil, or_false,
      Prod.mk.injEq] at hmem
    rcases hmem with ⟨rfl, rfl⟩ | ⟨rfl, rfl⟩ | ⟨rfl, rfl⟩ | ⟨rfl, rfl⟩ | ⟨rfl, rfl⟩ |
      ⟨rfl, rfl⟩ <;> decide
  · intro hnot
    have hfind : UBUNTU_VERSION_MAP.find? (fun e => e.1 == version) = none := by
      rw [List.find?_eq_none]
      intro e he
      simp only [beq_iff_eq]
      intro heq
      exact hnot (heq ▸ List.mem_map_of_mem Prod.fst he)
    simp [resolveCodename, dictGet, hfind, pyTitle, pyTitleAux]
  · intro hneq
    have hbeq : (os_type == "ubuntu") = false := beq_eq_false_iff_ne.mpr hneq
    simp [resolveCodename, hbeq]

theorem c9_witness :
    resolveCodename "ubuntu" "22.04" = "Jammy Jellyfish" ∧
    resolveCodename "ubuntu" "3.19" = "" ∧
    resolveCodename "alpine" "3.19" = "Alpine-3.19" :=
  ⟨(c9_codename "ubuntu" "22.04").1 "Jammy Jellyfish" (by decide),
   (c9_codename "ubuntu" "3.19").2.1 (by decide),
   (c9_codename "alpine" "3.19").2.2 (by decide)⟩

/-- C5 counterexample: an OS-type path that exists on disk but as a
regular file makes the run die with an uncaught NotADirectoryError
before any output document is produced, so mere existence of the path
does not yield an appended Distribution entry. -/
theorem c5_counterexample :
    (lookupEntry [("alpine", FSNode.file 0 none)] "alpine").isSome = true ∧
    runScript "." [("alpine", FSNode.file 0 none)] =
      .error ("NotADirectoryError: " ++ pathJoin "." "alpine") :=
  ⟨by rfl, by rfl⟩

/-- C5 (amended): for a recognized OS type, if its path exists on disk
as a directory, a Distribution entry named with the capitalized OS type
is produced - even when its versions mapping is empty - and the
produced entries are appended to the catalog's distributions list in
the fixed enumeration order; if the path does not exist, no
Distribution for that OS type appears and this is not an error.  (If
the path exists but is not a directory the run raises and produces no
output at all.) -/
theorem c5_dir_appended (base_dir os_type : String)
    (base : List (String × FSNode)) :
    (∀ es, lookupEntry base os_type = some (.dir es) →
      processOsType base_dir base os_type =
        .ok (some { name := pyCapitalize os_type,
                    versions := (buildVersions os_type (pathJoin base_dir os_type) es).1 },
             (buildVersions os_type (pathJoin base_dir os_type) es).2)) ∧
    (lookupEntry base os_type = none →
      processOsType base_dir base os_type = .ok (none, [])) ∧
    (∀ d1 l1 d2 l2,
      processOsType base_dir base "alpine" = .ok (d1, l1) →
      processOsType base_dir base "ubuntu" = .ok (d2, l2) →
      runScript base_dir base = .ok (⟨d1.toList ++ d2.toList⟩, l1 ++ l2)) := by
  refine ⟨?_, ?_, ?_⟩
  · intro es h
    unfold processOsType
    rw [h]
  · intro h
    unfold processOsType
    rw [h]
  · intro d1 l1 d2 l2 h1 h2
    unfold runScript
    simp only [runOsTypes, h1, h2]
    cases d1 <;> cases d2 <;> simp [Option.toList, Except.map]

theorem c5_witness :
    processOsType "." [("alpine", FSNode.dir [])] "alpine" =
      .ok (some { name := "Alpine", versions := [] }, []) ∧
    processOsType "." [("alpine", FSNode.dir [])] "ubuntu" = .ok (none, []) ∧
    runScript "." [("alpine", FSNode.dir [])] =
      .ok (⟨[{ name := "Alpine", versions := [] }]⟩, []) :=
  ⟨(c5_dir_appended "." "alpine" [("alpine", FSNode.dir [])]).1 [] (by rfl),
   (c5_dir_appended "." "ubuntu" [("alpine", FSNode.dir [])]).2.1 (by rfl),
   (c5_dir_appended "." "alpine" [("alpine", FSNode.dir [])]).2.2
     (some { name := "Alpine", versions := [] }) [] none [] (by rfl) (by rfl)⟩

/-- C10: determinism - any two runs of the full pipeline (catalog
construction plus serialization) over the same directory tree, i.e.
with the same fixed listing orders, produce byte-identical output
documents. -/
theorem c10_deterministic (base_dir : String) (base : List (String × FSNode))
    (out1 out2 : Except String String)
    (h1 : runAndRender base_dir base = out1)
    (h2 : runAndRender base_dir base = out2) : out1 = out2 := by
  rw [← h1, ← h2]

theorem c10_witness :
    runAndRender "." [("ubuntu", FSNode.dir [("22.04", FSNode.dir [("amd64", FSNode.dir
      [("u-rootfs.tar.gz", FSNode.file 500000 none),
       ("u-rootfs.tar.gz.md5", FSNode.file 40 (some "abc123"))])])])] =
    runAndRender "." [("ubuntu", FSNode.dir [("22.04", FSNode.dir [("amd64", FSNode.dir
      [("u-rootfs.tar.gz", FSNode.file 500000 none),
       ("u-rootfs.tar.gz.md5", FSNode.file 40 (some "abc123"))])])])] :=
  c10_deterministic "."
    [("ubuntu", FSNode.dir [("22.04", FSNode.dir [("amd64", FSNode.dir
      [("u-rootfs.tar.gz", FSNode.file 500000 none),
       ("u-rootfs.tar.gz.md5", FSNode.file 40 (some "abc123"))])])])]
    _ _ rfl rfl
